import Mathlib

/-!
Verification of the browser-side API client and page handlers of the
bone-shape-sculptor repository (src/services/api.ts, src/pages/Upload.tsx).

The TypeScript is shallowly embedded: each awaited `fetch`/`getJobStatus`
result is an element of an outcome stream `Nat → _`, so a whole execution of
a retry loop or of the polling timer loop is a pure function of that stream.
JavaScript exceptions are values of `JsError` (the `message` property plus
whether the value is a `TypeError`, the only class the code inspects).
-/

/-- A thrown JavaScript error as far as `api.ts` inspects it: its `message`
string and whether it is an instance of `TypeError`
(`error instanceof TypeError`). -/
structure JsError where
  isTypeError : Bool
  message : String
deriving DecidableEq, Repr

/-- `String.includes` of JavaScript: `pat` occurs as a contiguous substring
of `s`. -/
def strIncludes (s pat : String) : Bool :=
  decide (pat.data <:+: s.data)

/-- `isNetworkError` from `ApiService.request` (api.ts lines 87-90):
`error instanceof TypeError && (error.message.includes('Failed to fetch') ||
error.message.includes('NetworkError') ||
error.message.includes('ERR_NETWORK_CHANGED'))`. -/
def isNetworkError (e : JsError) : Bool :=
  e.isTypeError &&
    (strIncludes e.message "Failed to fetch" ||
     strIncludes e.message "NetworkError" ||
     strIncludes e.message "ERR_NETWORK_CHANGED")

/-- The outcome of one attempt of the `try` block of `ApiService.request`
(api.ts lines 71-85): either the parsed body `v` is returned, or some error
`e` is thrown into the `catch` (a network `TypeError` from `fetch`, or the
`Error` built from a non-ok response). -/
inductive FetchOutcome (T : Type) where
  | success (v : T)
  | failure (e : JsError)
deriving DecidableEq, Repr

/-- How a call to `ApiService.request` terminates: returning a value,
throwing the caught error (api.ts line 100), or reaching the trailing
`throw new Error('Max retries exceeded')` after the loop (api.ts line 104). -/
inductive ReqResult (T : Type) where
  | ok (v : T)
  | thrown (e : JsError)
  | maxRetriesExceeded
deriving DecidableEq, Repr

/-- Observable trace of one call to `ApiService.request`: the backoff delays
passed to `setTimeout` (in order), the number of fetch attempts made, and
how the call terminated. -/
structure ReqTrace (T : Type) where
  delays : List Nat
  attempts : Nat
  result : ReqResult T
deriving DecidableEq, Repr

namespace ApiService

/-- The retry loop of `ApiService.request` (api.ts lines 70-104):
`for (let attempt = 0; attempt <= retries; attempt++)`.  `outcomes a` is the
outcome of the fetch attempt numbered `a`.  `fuel` is the number of loop
iterations the guard `attempt <= retries` still allows, i.e.
`retries + 1 - attempt`; `fuel = 0` is the loop exiting to the trailing
`throw new Error('Max retries exceeded')`.  A network error with
`attempt < retries` waits `2 ^ attempt * 1000` ms and continues; any other
caught error is rethrown at once. -/
def requestLoop {T : Type} (outcomes : Nat → FetchOutcome T) (retries : Nat) :
    Nat → Nat → ReqTrace T
  | _, 0 => ⟨[], 0, .maxRetriesExceeded⟩
  | attempt, fuel + 1 =>
    match outcomes attempt with
    | .success v => ⟨[], 1, .ok v⟩
    | .failure e =>
      if isNetworkError e = true ∧ attempt < retries then
        let delay := 2 ^ attempt * 1000
        let rest := requestLoop outcomes retries (attempt + 1) fuel
        ⟨delay :: rest.delays, rest.attempts + 1, rest.result⟩
      else
        ⟨[], 1, .thrown e⟩

/-- `ApiService.request` with retry parameter `retries` (default `3` at the
call sites that omit it): the loop starts at `attempt = 0` with
`retries + 1` iterations allowed. -/
def request {T : Type} (retries : Nat) (outcomes : Nat → FetchOutcome T) :
    ReqTrace T :=
  requestLoop outcomes retries 0 (retries + 1)

/-- Attempt `b` of the stream fails with a network error in the sense of
`isNetworkError`. -/
def netFailAt {T : Type} (outcomes : Nat → FetchOutcome T) (b : Nat) : Prop :=
  ∃ e, outcomes b = .failure e ∧ isNetworkError e = true

end ApiService

namespace ApiService

lemma requestLoop_fuel_zero {T : Type} (outcomes : Nat → FetchOutcome T)
    (retries attempt : Nat) :
    requestLoop outcomes retries attempt 0 = ⟨[], 0, .maxRetriesExceeded⟩ := rfl

lemma requestLoop_success {T : Type} {outcomes : Nat → FetchOutcome T}
    {retries attempt fuel : Nat} {v : T} (h : outcomes attempt = .success v) :
    requestLoop outcomes retries attempt (fuel + 1) = ⟨[], 1, .ok v⟩ := by
  simp [requestLoop, h]

lemma requestLoop_retry {T : Type} {outcomes : Nat → FetchOutcome T}
    {retries attempt fuel : Nat} {e : JsError} (h : outcomes attempt = .failure e)
    (hc : isNetworkError e = true ∧ attempt < retries) :
    requestLoop outcomes retries attempt (fuel + 1) =
      ⟨2 ^ attempt * 1000 :: (requestLoop outcomes retries (attempt + 1) fuel).delays,
       (requestLoop outcomes retries (attempt + 1) fuel).attempts + 1,
       (requestLoop outcomes retries (attempt + 1) fuel).result⟩ := by
  simp only [requestLoop, h]
  rw [if_pos hc]

lemma requestLoop_throw {T : Type} {outcomes : Nat → FetchOutcome T}
    {retries attempt fuel : Nat} {e : JsError} (h : outcomes attempt = .failure e)
    (hc : ¬(isNetworkError e = true ∧ attempt < retries)) :
    requestLoop outcomes retries attempt (fuel + 1) = ⟨[], 1, .thrown e⟩ := by
  simp only [requestLoop, h]
  rw [if_neg hc]
/-- Characterization of the `setTimeout` delays of the retry loop, for any
starting attempt consistent with the remaining fuel: the loop schedules its
`i`-th delay exactly when attempts `attempt, …, attempt + i` all fail with
network errors below the retry cap, and that delay is
`2 ^ (attempt + i) * 1000` ms. -/
lemma requestLoop_delays_char {T : Type} (outcomes : Nat → FetchOutcome T)
    (retries : Nat) :
    ∀ fuel attempt, attempt + fuel = retries + 1 →
      (∀ i, i < (requestLoop outcomes retries attempt fuel).delays.length ↔
          (attempt + i < retries ∧ ∀ j, j ≤ i → netFailAt outcomes (attempt + j))) ∧
      (∀ i (h : i < (requestLoop outcomes retries attempt fuel).delays.length),
          (requestLoop outcomes retries attempt fuel).delays.get ⟨i, h⟩ =
            2 ^ (attempt + i) * 1000) := by
  intro fuel
  induction fuel with
  | zero =>
    intro attempt hsum
    rw [requestLoop_fuel_zero]
    constructor
    · intro i
      simp only [List.length_nil]
      constructor
      · intro h
        exact absurd h (Nat.not_lt_zero i)
      · rintro ⟨h1, -⟩
        omega
    · intro i h
      simp only [List.length_nil] at h
      exact absurd h (Nat.not_lt_zero i)
  | succ fuel ih =>
    intro attempt hsum
    cases houtcome : outcomes attempt with
    | success v =>
      rw [requestLoop_success houtcome]
      constructor
      · intro i
        simp only [List.length_nil]
        constructor
        · intro h
          exact absurd h (Nat.not_lt_zero i)
        · rintro ⟨-, h2⟩
          obtain ⟨e, he, -⟩ := h2 0 (Nat.zero_le i)
          rw [Nat.add_zero, houtcome] at he
          simp at he
      · intro i h
        simp only [List.length_nil] at h
        exact absurd h (Nat.not_lt_zero i)
    | failure e =>
      by_cases hcond : isNetworkError e = true ∧ attempt < retries
      · obtain ⟨hnet, hlt⟩ := hcond
        have hsum2 : (attempt + 1) + fuel = retries + 1 := by omega
        obtain ⟨ih1, ih2⟩ := ih (attempt + 1) hsum2
        rw [requestLoop_retry houtcome ⟨hnet, hlt⟩]
        constructor
        · intro i
          cases i with
          | zero =>
            simp only [List.length_cons]
            constructor
            · intro _
              refine ⟨by omega, ?_⟩
              intro j hj
              have hj0 : j = 0 := Nat.le_zero.mp hj
              subst hj0
              exact ⟨e, by rw [Nat.add_zero]; exact houtcome, hnet⟩
            · intro _
              exact Nat.succ_pos _
          | succ i =>
            simp only [List.length_cons, Nat.succ_lt_succ_iff]
            rw [ih1 i]
            constructor
            · rintro ⟨h1, h2⟩
              refine ⟨by omega, ?_⟩
              intro j hj
              cases j with
              | zero =>
                exact ⟨e, by rw [Nat.add_zero]; exact houtcome, hnet⟩
              | succ j =>
                have hx : attempt + (j + 1) = attempt + 1 + j := by omega
                rw [hx]
                exact h2 j (by omega)
            · rintro ⟨h1, h2⟩
              refine ⟨by omega, ?_⟩
              intro j hj
              have hx : attempt + 1 + j = attempt + (j + 1) := by omega
              rw [hx]
              exact h2 (j + 1) (by omega)
        · intro i h
          cases i with
          | zero =>
            show 2 ^ attempt * 1000 = 2 ^ (attempt + 0) * 1000
            rw [Nat.add_zero]
          | succ i =>
            simp only [List.length_cons, Nat.succ_lt_succ_iff] at h
            have hstep :
                (2 ^ attempt * 1000 ::
                    (requestLoop outcomes retries (attempt + 1) fuel).delays).get
                  ⟨i + 1, Nat.succ_lt_succ h⟩ =
                (requestLoop outcomes retries (attempt + 1) fuel).delays.get ⟨i, h⟩ :=
              rfl
            rw [hstep, ih2 i h]
            have hx : attempt + 1 + i = attempt + (i + 1) := by omega
            rw [hx]
      · rw [requestLoop_throw houtcome hcond]
        constructor
        · intro i
          simp only [List.length_nil]
          constructor
          · intro h
            exact absurd h (Nat.not_lt_zero i)
          · rintro ⟨h1, h2⟩
            obtain ⟨e2, he2, hnet2⟩ := h2 0 (Nat.zero_le i)
            rw [Nat.add_zero, houtcome] at he2
            injection he2 with hee
            subst hee
            exact absurd ⟨hnet2, by omega⟩ hcond
        · intro i h
          simp only [List.length_nil] at h
          exact absurd h (Nat.not_lt_zero i)

end ApiService

namespace ApiService

/-- Every iteration of the retry loop makes at most one fetch attempt, so the
attempt count is bounded by the remaining fuel. -/
lemma requestLoop_attempts_le {T : Type} (outcomes : Nat → FetchOutcome T)
    (retries : Nat) :
    ∀ fuel attempt, (requestLoop outcomes retries attempt fuel).attempts ≤ fuel := by
  intro fuel
  induction fuel with
  | zero =>
    intro attempt
    rw [requestLoop_fuel_zero]
  | succ fuel ih =>
    intro attempt
    cases hout : outcomes attempt with
    | success v =>
      rw [requestLoop_success hout]
      exact Nat.succ_le_succ (Nat.zero_le fuel)
    | failure e =>
      by_cases hcond : isNetworkError e = true ∧ attempt < retries
      · rw [requestLoop_retry hout hcond]
        exact Nat.succ_le_succ (ih (attempt + 1))
      · rw [requestLoop_throw hout hcond]
        exact Nat.succ_le_succ (Nat.zero_le fuel)

/-- If the first attempt that is not a below-cap network error is attempt `a`,
failing with error `e` that is either not a network error or at the final
allowed attempt (`a = retries`), then the loop rethrows `e` right there,
after exactly `a - attempt + 1` fetches. -/
lemma requestLoop_thrown_char {T : Type} (outcomes : Nat → FetchOutcome T)
    (retries : Nat) :
    ∀ fuel attempt a e, attempt + fuel = retries + 1 → attempt ≤ a → a ≤ retries →
      (∀ b, attempt ≤ b → b < a → netFailAt outcomes b) →
      outcomes a = .failure e →
      (isNetworkError e = false ∨ a = retries) →
      (requestLoop outcomes retries attempt fuel).result = .thrown e ∧
      (requestLoop outcomes retries attempt fuel).attempts = a - attempt + 1 := by
  intro fuel
  induction fuel with
  | zero =>
    intro attempt a e hsum hle hret _ _ _
    exact absurd hret (by omega)
  | succ fuel ih =>
    intro attempt a e hsum hle hret hprev hout hcase
    rcases Nat.eq_or_lt_of_le hle with heq | hlt2
    · subst heq
      have hcnot : ¬(isNetworkError e = true ∧ attempt < retries) := by
        rcases hcase with hf | hr
        · exact fun hc => absurd hc.1 (by simp [hf])
        · exact fun hc => absurd hc.2 (by omega)
      rw [requestLoop_throw hout hcnot]
      exact ⟨rfl, by simp⟩
    · obtain ⟨e0, he0, hnet0⟩ := hprev attempt (Nat.le_refl attempt) hlt2
      have hcond : isNetworkError e0 = true ∧ attempt < retries := ⟨hnet0, by omega⟩
      rw [requestLoop_retry he0 hcond]
      have hrec := ih (attempt + 1) a e (by omega) (by omega) hret
        (fun b hb1 hb2 => hprev b (by omega) hb2) hout hcase
      refine ⟨hrec.1, ?_⟩
      show (requestLoop outcomes retries (attempt + 1) fuel).attempts + 1 =
        a - attempt + 1
      rw [hrec.2]
      omega

/-- For every start attempt still inside the loop bound, the loop result is a
returned value or a rethrown error — the trailing throw is never the result. -/
lemma requestLoop_result_settles {T : Type} (outcomes : Nat → FetchOutcome T)
    (retries : Nat) :
    ∀ fuel attempt, attempt + fuel = retries + 1 → attempt ≤ retries →
      (∃ v, (requestLoop outcomes retries attempt fuel).result = .ok v) ∨
      (∃ e, (requestLoop outcomes retries attempt fuel).result = .thrown e) := by
  intro fuel
  induction fuel with
  | zero =>
    intro attempt hsum hle
    exact absurd hle (by omega)
  | succ fuel ih =>
    intro attempt hsum hle
    cases hout : outcomes attempt with
    | success v =>
      rw [requestLoop_success hout]
      exact Or.inl ⟨v, rfl⟩
    | failure e =>
      by_cases hcond : isNetworkError e = true ∧ attempt < retries
      · rw [requestLoop_retry hout hcond]
        exact ih (attempt + 1) (by omega) (by omega)
      · rw [requestLoop_throw hout hcond]
        exact Or.inr ⟨e, rfl⟩

/-- Network error used in witness executions: a `TypeError` whose message the
retry logic recognizes. -/
def netErr : JsError := ⟨true, "Failed to fetch"⟩

/-- Non-network error used in witness executions: the `Error` built from a
non-ok HTTP response (not a `TypeError`). -/
def httpErr : JsError := ⟨false, "HTTP 500: Internal Server Error"⟩

/-- A fetch-outcome stream whose first two attempts fail with a network error
and which then succeeds. -/
def twoNetFails : Nat → FetchOutcome Nat := fun a =>
  if a < 2 then .failure netErr else .success 7

/-- A fetch-outcome stream that always fails with a non-network HTTP error. -/
def alwaysHttpFail : Nat → FetchOutcome Nat := fun _ => .failure httpErr

/-- C1: For every call to `ApiService.request`, the loop schedules its `a`-th
retry delay exactly when attempts `0, …, a` all fail with network errors
(`TypeError` whose message contains one of the three network markers) and
`a < retries`, and that delay is exactly `2 ^ a * 1000` milliseconds
(1s, 2s, 4s for the default `retries = 3`); no other kind of failure
produces a retry delay. -/
theorem request_exponential_backoff {T : Type} (retries : Nat)
    (outcomes : Nat → FetchOutcome T) :
    (∀ a, a < (request retries outcomes).delays.length ↔
        (a < retries ∧ ∀ b, b ≤ a → netFailAt outcomes b)) ∧
    (∀ a (h : a < (request retries outcomes).delays.length),
        (request retries outcomes).delays.get ⟨a, h⟩ = 2 ^ a * 1000) := by
  obtain ⟨h1, h2⟩ := requestLoop_delays_char outcomes retries (retries + 1) 0 (by omega)
  constructor
  · intro a
    have := h1 a
    simpa [request] using this
  · intro a h
    have := h2 a h
    rw [Nat.zero_add] at this
    exact this

/-- Witness for C1: with two initial network failures and `retries = 3`, the
second scheduled retry delay is `2 ^ 1 * 1000 = 2000` ms. -/
theorem request_exponential_backoff_witness :
    (request 3 twoNetFails).delays.get ⟨1, by decide⟩ = 2 ^ 1 * 1000 :=
  (request_exponential_backoff 3 twoNetFails).2 1 (by decide)

/-- C4: `ApiService.request` makes at most `retries + 1` fetch attempts, and
an error that is not a network error, or a network error on the final
attempt (`a = retries`), is rethrown to the caller at once: the call
terminates with that error after exactly `a + 1` attempts. -/
theorem request_retry_cap {T : Type} (retries : Nat)
    (outcomes : Nat → FetchOutcome T) :
    (request retries outcomes).attempts ≤ retries + 1 ∧
    (∀ a e, a ≤ retries → (∀ b, b < a → netFailAt outcomes b) →
      outcomes a = .failure e → (isNetworkError e = false ∨ a = retries) →
      (request retries outcomes).result = .thrown e ∧
        (request retries outcomes).attempts = a + 1) := by
  constructor
  · exact requestLoop_attempts_le outcomes retries (retries + 1) 0
  · intro a e ha hb hout hcase
    have := requestLoop_thrown_char outcomes retries (retries + 1) 0 a e (by omega)
      (Nat.zero_le a) ha (fun b _ hb2 => hb b hb2) hout hcase
    simpa using this

/-- Witness for C4: an immediate non-network HTTP error with `retries = 3` is
rethrown after a single attempt. -/
theorem request_retry_cap_witness :
    (request 3 alwaysHttpFail).result = .thrown httpErr ∧
    (request 3 alwaysHttpFail).attempts = 0 + 1 :=
  (request_retry_cap 3 alwaysHttpFail).2 0 httpErr (Nat.zero_le 3)
    (fun b hb => absurd hb (Nat.not_lt_zero b)) rfl (Or.inl (by decide))

/-- C8: The trailing `throw new Error('Max retries exceeded')` after the retry
loop of `ApiService.request` is unreachable: every call terminates from
inside the loop body, either returning a parsed response or rethrowing a
caught error. -/
theorem request_unreachable_final_throw {T : Type} (retries : Nat)
    (outcomes : Nat → FetchOutcome T) :
    (∃ v, (request retries outcomes).result = .ok v) ∨
    (∃ e, (request retries outcomes).result = .thrown e) :=
  requestLoop_result_settles outcomes retries (retries + 1) 0 (by omega)
    (Nat.zero_le retries)

end ApiService

/-- The `status` string union of a `JobStatus` response
(api.ts line 10: `'queued' | 'processing' | 'completed' | 'error'`). -/
inductive StatusField where
  | queued
  | processing
  | completed
  | error
deriving DecidableEq, Repr

/-- The fields of a `JobStatus` response that `pollJobStatus` inspects: the
`status` union and the optional `error` message (api.ts lines 8-22). -/
structure JobStatus where
  status : StatusField
  error : Option String
deriving DecidableEq, Repr

/-- Outcome of one awaited `this.getJobStatus(jobId)` call inside the `poll`
closure: the parsed `JobStatus`, or the error thrown by `request`. -/
inductive PollOutcome where
  | success (s : JobStatus)
  | failure (e : JsError)
deriving DecidableEq, Repr

/-- What one invocation of the `poll` closure does to the promise returned by
`pollJobStatus`: settle it (`resolve`/`reject`) or schedule the next `poll`
via `setTimeout` after `delayMs` milliseconds.  Delays are rationals because
the JavaScript arithmetic (`intervalMs * Math.pow(1.5, n)`) is on numbers,
not integers. -/
inductive PollAction where
  | resolve (s : JobStatus)
  | reject (msg : String)
  | next (delayMs : ℚ)
deriving DecidableEq, Repr

/-- JavaScript `a || b` for an optional string `a`: `b` when `a` is
`undefined` or the empty string (both falsy), `a` otherwise. -/
def jsOrElse (o : Option String) (dflt : String) : String :=
  match o with
  | none => dflt
  | some m => if m = "" then dflt else m

namespace ApiService

/-- `maxConsecutiveErrors` of `ApiService.pollJobStatus` (api.ts line 201). -/
def maxConsecutiveErrors : Nat := 3

/-- One invocation of the `poll` closure of `ApiService.pollJobStatus`
(api.ts lines 203-234), as a function of the incoming `consecutiveErrors`
counter and the outcome `o` of `await this.getJobStatus(jobId)`.  Returns
the action taken and the updated counter.  On success the counter is reset
to 0 before the status dispatch (line 206), so the `Math.pow(1.5, …)`
factor of the adaptive interval is computed at exponent 0. -/
def pollStep (intervalMs : ℚ) (consecutiveErrors : Nat) (o : PollOutcome) :
    PollAction × Nat :=
  match o with
  | .success status =>
    let consecutiveErrors := 0
    match status.status with
    | .completed => (.resolve status, consecutiveErrors)
    | .error => (.reject (jsOrElse status.error "Job failed"), consecutiveErrors)
    | _ =>
      let adaptiveInterval := min (intervalMs * (1.5 : ℚ) ^ consecutiveErrors) 10000
      (.next adaptiveInterval, consecutiveErrors)
  | .failure e =>
    let consecutiveErrors := consecutiveErrors + 1
    if consecutiveErrors ≥ maxConsecutiveErrors then
      (.reject ("Failed to poll job status after " ++ toString maxConsecutiveErrors ++
        " consecutive errors: " ++ e.message), consecutiveErrors)
    else
      let backoffInterval := intervalMs * (2 : ℚ) ^ consecutiveErrors
      (.next (min backoffInterval 30000), consecutiveErrors)

/-- The value of the `consecutiveErrors` counter when the `n`-th invocation
of `poll` starts, in the run of `pollJobStatus` on the outcome stream
`outcomes` (the counter starts at 0, api.ts line 200). -/
def pollErrorCount (intervalMs : ℚ) (outcomes : Nat → PollOutcome) : Nat → Nat
  | 0 => 0
  | n + 1 => (pollStep intervalMs (pollErrorCount intervalMs outcomes n) (outcomes n)).2

/-- The action taken by the `n`-th invocation of `poll` in the run of
`pollJobStatus` on the outcome stream `outcomes`. -/
def pollAction (intervalMs : ℚ) (outcomes : Nat → PollOutcome) (n : Nat) :
    PollAction :=
  (pollStep intervalMs (pollErrorCount intervalMs outcomes n) (outcomes n)).1

/-- Number of consecutive failed `getJobStatus` outcomes immediately before
index `n` in the stream. -/
def consecFails (outcomes : Nat → PollOutcome) : Nat → Nat
  | 0 => 0
  | n + 1 =>
    match outcomes n with
    | .failure _ => consecFails outcomes n + 1
    | .success _ => 0

lemma pollStep_snd_success (intervalMs : ℚ) (ce : Nat) (s : JobStatus) :
    (pollStep intervalMs ce (.success s)).2 = 0 := by
  cases hs : s.status <;> simp [pollStep, hs]

lemma pollStep_snd_failure (intervalMs : ℚ) (ce : Nat) (e : JsError) :
    (pollStep intervalMs ce (.failure e)).2 = ce + 1 := by
  by_cases h : ce + 1 ≥ maxConsecutiveErrors
  · simp [pollStep, h]
  · simp [pollStep, h]

/-- The `consecutiveErrors` counter entering invocation `n` equals the number
of consecutive failures immediately before `n`: failures increment it and
every success resets it to 0. -/
lemma pollErrorCount_eq_consecFails (intervalMs : ℚ)
    (outcomes : Nat → PollOutcome) :
    ∀ n, pollErrorCount intervalMs outcomes n = consecFails outcomes n := by
  intro n
  induction n with
  | zero => rfl
  | succ n ih =>
    cases ho : outcomes n with
    | success s =>
      simp [pollErrorCount, consecFails, ho, pollStep_snd_success]
    | failure e =>
      simp [pollErrorCount, consecFails, ho, pollStep_snd_failure, ih]

end ApiService

namespace ApiService

/-- A still-running job status used in witness executions. -/
def queuedStatus : JobStatus := ⟨.queued, none⟩

/-- A completed job status used in witness executions. -/
def completedStatus : JobStatus := ⟨.completed, none⟩

/-- A failed job status, with an error message, used in witness executions. -/
def errorStatus : JobStatus := ⟨.error, some "boom"⟩

/-- A `getJobStatus` outcome stream that always reports a queued job. -/
def alwaysQueued : Nat → PollOutcome := fun _ => .success queuedStatus

/-- A `getJobStatus` outcome stream that always reports a completed job. -/
def alwaysCompleted : Nat → PollOutcome := fun _ => .success completedStatus

/-- A `getJobStatus` outcome stream that always reports a failed job. -/
def alwaysErrorStatus : Nat → PollOutcome := fun _ => .success errorStatus

/-- A `getJobStatus` outcome stream whose every call throws. -/
def alwaysPollFail : Nat → PollOutcome := fun _ => .failure httpErr

/-- C2: In every run of `ApiService.pollJobStatus`, an invocation of `poll`
whose `getJobStatus` call fails rejects the promise exactly when it is the
third consecutive failure (the counter entering it is already 2); with
fewer consecutive failures it only schedules another poll, and every
successful call resets the consecutive-error counter to 0. -/
theorem pollJobStatus_consecutive_error_threshold (intervalMs : ℚ)
    (outcomes : Nat → PollOutcome) (n : Nat) :
    (∀ e, outcomes n = .failure e → 2 ≤ consecFails outcomes n →
      pollAction intervalMs outcomes n =
        .reject ("Failed to poll job status after " ++ toString maxConsecutiveErrors ++
          " consecutive errors: " ++ e.message)) ∧
    (∀ e, outcomes n = .failure e → consecFails outcomes n + 1 < maxConsecutiveErrors →
      ∃ d, pollAction intervalMs outcomes n = .next d) ∧
    (∀ s, outcomes n = .success s → pollErrorCount intervalMs outcomes (n + 1) = 0) := by
  refine ⟨?_, ?_, ?_⟩
  · intro e he hce
    unfold pollAction
    rw [pollErrorCount_eq_consecFails, he]
    have h3 : consecFails outcomes n + 1 ≥ maxConsecutiveErrors := by
      simp only [maxConsecutiveErrors]
      omega
    simp [pollStep, h3]
  · intro e he hlt
    unfold pollAction
    rw [pollErrorCount_eq_consecFails, he]
    have h3 : ¬(consecFails outcomes n + 1 ≥ maxConsecutiveErrors) :=
      Nat.not_le.mpr hlt
    exact ⟨min (intervalMs * (2 : ℚ) ^ (consecFails outcomes n + 1)) 30000,
      by simp [pollStep, h3]⟩
  · intro s hs
    simp [pollErrorCount, hs, pollStep_snd_success]

/-- Witness for C2: with every poll failing, invocation 2 (the third
consecutive failure) rejects; invocation 0 merely schedules another poll;
and a successful queued status resets the counter to 0. -/
theorem pollJobStatus_consecutive_error_threshold_witness :
    pollAction 2000 alwaysPollFail 2 =
      .reject ("Failed to poll job status after " ++ toString maxConsecutiveErrors ++
        " consecutive errors: " ++ httpErr.message) ∧
    (∃ d, pollAction 2000 alwaysPollFail 0 = .next d) ∧
    pollErrorCount 2000 alwaysQueued 1 = 0 :=
  ⟨(pollJobStatus_consecutive_error_threshold 2000 alwaysPollFail 2).1 httpErr rfl
      (by decide),
   (pollJobStatus_consecutive_error_threshold 2000 alwaysPollFail 0).2.1 httpErr rfl
      (by decide),
   (pollJobStatus_consecutive_error_threshold 2000 alwaysQueued 0).2.2 queuedStatus rfl⟩

/-- C3: There is an execution of `ApiService.pollJobStatus` in which the delay
scheduled after a successful status check of a still-running (queued) job
differs from the interval parameter `intervalMs`: with `intervalMs = 20000`
the scheduled delay is `min(20000 * 1.5^0, 10000) = 10000 ≠ 20000`. -/
theorem pollJobStatus_adaptive_interval_deviates :
    alwaysQueued 0 = .success queuedStatus ∧
    queuedStatus.status = .queued ∧
    pollAction 20000 alwaysQueued 0 = .next 10000 ∧
    (10000 : ℚ) ≠ 20000 := by
  refine ⟨rfl, rfl, ?_, by norm_num⟩
  have h1 : pollAction 20000 alwaysQueued 0 =
      .next (min ((20000 : ℚ) * (1.5 : ℚ) ^ (0 : Nat)) 10000) := rfl
  rw [h1, pow_zero, mul_one, min_eq_right (by norm_num : (10000 : ℚ) ≤ 20000)]

/-- C5: In every run of `ApiService.pollJobStatus`, an invocation of `poll`
resolves the promise with the fetched status exactly when that status is
`'completed'`; a fetched status `'error'` makes it reject with the status's
error message (or `'Job failed'` when that message is absent); and any
other fetched status (`'queued'` or `'processing'`) only schedules another
poll. -/
theorem pollJobStatus_settlement (intervalMs : ℚ) (outcomes : Nat → PollOutcome)
    (n : Nat) :
    (∀ s, pollAction intervalMs outcomes n = .resolve s ↔
        (outcomes n = .success s ∧ s.status = .completed)) ∧
    (∀ s, outcomes n = .success s → s.status = .error →
        pollAction intervalMs outcomes n = .reject (jsOrElse s.error "Job failed")) ∧
    (∀ s, outcomes n = .success s → (s.status = .queued ∨ s.status = .processing) →
        ∃ d, pollAction intervalMs outcomes n = .next d) := by
  refine ⟨?_, ?_, ?_⟩
  · intro s
    constructor
    · intro h
      unfold pollAction at h
      cases ho : outcomes n with
      | failure e =>
        rw [ho] at h
        by_cases h3 : pollErrorCount intervalMs outcomes n + 1 ≥ maxConsecutiveErrors
        · simp [pollStep, h3] at h
        · simp [pollStep, h3] at h
      | success s2 =>
        rw [ho] at h
        cases hs : s2.status with
        | completed =>
          have hs2 : s2 = s := by simpa [pollStep, hs] using h
          rw [← hs2]
          exact ⟨rfl, hs⟩
        | error => simp [pollStep, hs] at h
        | queued => simp [pollStep, hs] at h
        | processing => simp [pollStep, hs] at h
    · rintro ⟨ho, hs⟩
      unfold pollAction
      rw [ho]
      simp [pollStep, hs]
  · intro s ho hs
    unfold pollAction
    rw [ho]
    simp [pollStep, hs]
  · intro s ho hs
    unfold pollAction
    rw [ho]
    rcases hs with hq | hp
    · exact ⟨min (intervalMs * (1.5 : ℚ) ^ (0 : Nat)) 10000,
        by simp [pollStep, hq]⟩
    · exact ⟨min (intervalMs * (1.5 : ℚ) ^ (0 : Nat)) 10000,
        by simp [pollStep, hp]⟩

/-- Witness for C5: a completed status resolves, an error status rejects with
its message, and a queued status schedules another poll. -/
theorem pollJobStatus_settlement_witness :
    pollAction 2000 alwaysCompleted 0 = .resolve completedStatus ∧
    pollAction 2000 alwaysErrorStatus 0 =
      .reject (jsOrElse errorStatus.error "Job failed") ∧
    (∃ d, pollAction 2000 alwaysQueued 0 = .next d) :=
  ⟨((pollJobStatus_settlement 2000 alwaysCompleted 0).1 completedStatus).mpr
      ⟨rfl, rfl⟩,
   (pollJobStatus_settlement 2000 alwaysErrorStatus 0).2.1 errorStatus rfl rfl,
   (pollJobStatus_settlement 2000 alwaysQueued 0).2.2 queuedStatus rfl (Or.inl rfl)⟩

/-- C6: In a run of `ApiService.pollJobStatus`, the invocation of `poll` that
hits the `n`-th consecutive polling error for `1 ≤ n < 3` (so the counter
entering it is `n - 1`) schedules the next poll after exactly
`min(intervalMs * 2 ^ n, 30000)` milliseconds. -/
theorem pollJobStatus_error_backoff (intervalMs : ℚ)
    (outcomes : Nat → PollOutcome) (k n : Nat) (e : JsError)
    (h1 : 1 ≤ n) (h2 : n < maxConsecutiveErrors)
    (he : outcomes k = .failure e) (hc : consecFails outcomes k = n - 1) :
    pollAction intervalMs outcomes k = .next (min (intervalMs * 2 ^ n) 30000) := by
  unfold pollAction
  rw [pollErrorCount_eq_consecFails, he, hc]
  have h4 : ¬(maxConsecutiveErrors ≤ n) := by
    simp only [maxConsecutiveErrors] at h2 ⊢
    omega
  have hn : n - 1 + 1 = n := by omega
  simp [pollStep, hn, h4]

/-- Witness for C6: with `intervalMs = 2000`, the first polling error
(`n = 1`) schedules the next poll after `min(2000 * 2^1, 30000)` ms. -/
theorem pollJobStatus_error_backoff_witness :
    pollAction 2000 alwaysPollFail 0 = .next (min ((2000 : ℚ) * 2 ^ 1) 30000) :=
  pollJobStatus_error_backoff 2000 alwaysPollFail 0 1 httpErr (Nat.le_refl 1)
    (by decide) rfl rfl

end ApiService

/-- `formatProcessingTime` (api.ts lines 313-325) for a nonnegative integer
number of seconds: JavaScript `Math.floor` of a quotient of nonnegative
integers is `Nat` division and `%` is `Nat.mod`; the template literals are
written as string concatenation. -/
def formatProcessingTime (seconds : Nat) : String :=
  if seconds < 60 then
    toString seconds ++ "s"
  else if seconds < 3600 then
    let minutes := seconds / 60
    let remainingSeconds := seconds % 60
    toString minutes ++ "m " ++ toString remainingSeconds ++ "s"
  else
    let hours := seconds / 3600
    let minutes := (seconds % 3600) / 60
    toString hours ++ "h " ++ toString minutes ++ "m"

/-- C9: `formatProcessingTime` prints the correct Euclidean decomposition of
the duration: `{seconds}s` below one minute; `{m}m {s}s` with
`seconds = 60 * m + s`, `s < 60` below one hour; and `{h}h {m}m` with
`seconds = 3600 * h + 60 * m + s`, `m < 60`, `s < 60` from one hour on
(the bounds make the decompositions the Euclidean ones, i.e.
`m = seconds / 60`, `h = seconds / 3600`, and so on). -/
theorem formatProcessingTime_euclidean (seconds : Nat) :
    (seconds < 60 → formatProcessingTime seconds = toString seconds ++ "s") ∧
    (60 ≤ seconds → seconds < 3600 →
      ∃ m s, seconds = 60 * m + s ∧ s < 60 ∧
        formatProcessingTime seconds = toString m ++ "m " ++ toString s ++ "s") ∧
    (3600 ≤ seconds →
      ∃ h m s, seconds = 3600 * h + 60 * m + s ∧ m < 60 ∧ s < 60 ∧
        formatProcessingTime seconds = toString h ++ "h " ++ toString m ++ "m") := by
  refine ⟨?_, ?_, ?_⟩
  · intro h
    simp [formatProcessingTime, h]
  · intro h1 h2
    refine ⟨seconds / 60, seconds % 60, by omega, by omega, ?_⟩
    have hn : ¬seconds < 60 := by omega
    simp [formatProcessingTime, hn, h2]
  · intro h1
    refine ⟨seconds / 3600, (seconds % 3600) / 60, seconds % 60, by omega, by omega,
      by omega, ?_⟩
    have hn1 : ¬seconds < 60 := by omega
    have hn2 : ¬seconds < 3600 := by omega
    simp [formatProcessingTime, hn1, hn2]

/-- Witness for C9: 30 s, 90 s and 3700 s land in the three branches with
their Euclidean decompositions. -/
theorem formatProcessingTime_euclidean_witness :
    (formatProcessingTime 30 = toString 30 ++ "s") ∧
    (∃ m s, 90 = 60 * m + s ∧ s < 60 ∧
      formatProcessingTime 90 = toString m ++ "m " ++ toString s ++ "s") ∧
    (∃ h m s, 3700 = 3600 * h + 60 * m + s ∧ m < 60 ∧ s < 60 ∧
      formatProcessingTime 3700 = toString h ++ "h " ++ toString m ++ "m") :=
  ⟨(formatProcessingTime_euclidean 30).1 (by decide),
   (formatProcessingTime_euclidean 90).2.1 (by decide) (by decide),
   (formatProcessingTime_euclidean 3700).2.2 (by decide)⟩

/-- The `sizes` array of `formatFileSize` (api.ts line 306). -/
def sizes : List String := ["Bytes", "KB", "MB", "GB"]

/-- The unit index `i = Math.floor(Math.log(bytes) / Math.log(k))` with
`k = 1024` of `formatFileSize` (api.ts line 307): for a positive integer
`bytes`, the floor of the real number `log bytes / log 1024` is
`Nat.log 1024 bytes` (the IEEE-double rounding of `Math.log` is abstracted
to exact real logarithms). -/
def sizeIndex (bytes : Nat) : Nat := Nat.log 1024 bytes

/-- The number part `parseFloat((bytes / Math.pow(k, i)).toFixed(2))` of
`formatFileSize` (api.ts line 309), modelled over exact rationals:
`toFixed(2)` rounds to two decimals (half up, on the nonnegative values
that occur here) and `parseFloat` of that string drops trailing zeros.
IEEE-double rounding is abstracted. -/
def renderFixed2 (q : ℚ) : String :=
  let c : Int := ⌊q * 100 + 1 / 2⌋
  let ip := c / 100
  let frac := c % 100
  if frac = 0 then toString ip
  else if frac % 10 = 0 then toString ip ++ "." ++ toString (frac / 10)
  else if frac < 10 then toString ip ++ ".0" ++ toString frac
  else toString ip ++ "." ++ toString frac

/-- `formatFileSize` (api.ts lines 302-310).  A JavaScript out-of-bounds read
`sizes[i]` yields `undefined`, which string concatenation renders as
`"undefined"`; the in-bounds reads are `List.getD` at index `i`. -/
def formatFileSize (bytes : Nat) : String :=
  if bytes = 0 then "0 Bytes"
  else
    let i := sizeIndex bytes
    renderFixed2 ((bytes : ℚ) / (1024 : ℚ) ^ i) ++ " " ++ sizes.getD i "undefined"

/-- C10: For `0 < bytes < 1024 ^ 4` the unit index of `formatFileSize` is in
bounds for the four-element `sizes` array and the result is the rendered
number, a space, and that unit; `formatFileSize 0 = "0 Bytes"`; and the
precondition is needed: from `1024 ^ 4` on, the index is out of bounds. -/
theorem formatFileSize_unit_in_bounds (bytes : Nat) (h0 : 0 < bytes)
    (h4 : bytes < 1024 ^ 4) :
    ∃ hlt : sizeIndex bytes < sizes.length,
      formatFileSize bytes =
        renderFixed2 ((bytes : ℚ) / (1024 : ℚ) ^ sizeIndex bytes) ++ " " ++
          sizes.get ⟨sizeIndex bytes, hlt⟩ ∧
      formatFileSize 0 = "0 Bytes" ∧
      (∀ b : Nat, 1024 ^ 4 ≤ b → sizes.length ≤ sizeIndex b) := by
  have hlog : Nat.log 1024 bytes < 4 := Nat.log_lt_of_lt_pow (by omega) h4
  have hlt : sizeIndex bytes < sizes.length := by simpa [sizeIndex, sizes] using hlog
  refine ⟨hlt, ?_, rfl, ?_⟩
  · have hne : ¬(bytes = 0) := by omega
    simp only [formatFileSize, if_neg hne]
    rw [List.getD_eq_getElem sizes "undefined" hlt]
    rfl
  · intro b hb
    have hge : 4 ≤ Nat.log 1024 b := Nat.le_log_of_pow_le (by norm_num) hb
    simpa [sizeIndex, sizes] using hge

/-- Witness for C10: at `bytes = 5000` the hypotheses hold and the theorem
applies. -/
theorem formatFileSize_unit_in_bounds_witness :
    ∃ hlt : sizeIndex 5000 < sizes.length,
      formatFileSize 5000 =
        renderFixed2 ((5000 : ℚ) / (1024 : ℚ) ^ sizeIndex 5000) ++ " " ++
          sizes.get ⟨sizeIndex 5000, hlt⟩ ∧
      formatFileSize 0 = "0 Bytes" ∧
      (∀ b : Nat, 1024 ^ 4 ≤ b → sizes.length ≤ sizeIndex b) :=
  formatFileSize_unit_in_bounds 5000 (by norm_num) (by norm_num)

/-- Observable effects of the Upload page's `processFiles` click handler
(Upload.tsx lines 48-83): toast calls, `setIsProcessing` updates, per-file
status and progress updates, and — so that an invocation of the shared
`apiService` client is expressible at all — a constructor for calls into
`apiService`, identified by the method invoked. -/
inductive UploadEffect where
  | toastError (msg : String)
  | toastSuccess (msg : String)
  | setProcessing (b : Bool)
  | setStatus (index : Nat) (st : String)
  | setProgress (index : Nat) (p : Nat)
  | apiServiceCall (method : String)
deriving DecidableEq, Repr

/-- `true` exactly when the effect list contains a call into the shared
`apiService` client. -/
def callsApiService (effects : List UploadEffect) : Bool :=
  effects.any fun e =>
    match e with
    | .apiServiceCall _ => true
    | _ => false

namespace Upload

/-- The progress values `0, 10, …, 100` of the inner simulation loop of
`processFiles` (Upload.tsx line 65:
`for (let progress = 0; progress <= 100; progress += 10)`). -/
def progressValues : List Nat := (List.range 11).map (fun p => p * 10)

/-- `processFiles` of the Upload page (Upload.tsx lines 48-83), as the list of
effects it performs in order on the file list `files` (files identified by
index, which is how the loop addresses them).  With an empty list it shows
an error toast and returns (lines 49-52); otherwise it sets `isProcessing`,
marks each file `uploading`, steps its progress from 0 to 100 by 10, marks
it `completed`, clears `isProcessing` and shows a success toast.  The body
is a local simulation (line 56: `// Simulate file processing`); no
`apiServiceCall` effect occurs, and Upload.tsx does not import
`apiService`. -/
def processFiles (files : List String) : List UploadEffect :=
  if files.length = 0 then
    [.toastError "Please upload DICOM files first"]
  else
    [UploadEffect.setProcessing true] ++
    ((List.range files.length).map (fun i =>
      [UploadEffect.setStatus i "uploading"] ++
      progressValues.map (fun p => UploadEffect.setProgress i p) ++
      [UploadEffect.setStatus i "completed"])).flatten ++
    [UploadEffect.setProcessing false,
     UploadEffect.toastSuccess "All files processed successfully!"]

end Upload

/-- C7 counterexample: clicking Start 3D Reconstruction with the non-empty
file list `["scan1.dcm"]` performs no call into the shared `apiService`
client — `Upload.processFiles` does not upload; it only simulates. -/
theorem upload_processFiles_no_api_call :
    (["scan1.dcm"] : List String) ≠ [] ∧
    callsApiService (Upload.processFiles ["scan1.dcm"]) = false := by
  constructor
  · simp
  · decide

/-- C7 amended: for every click of the Start 3D Reconstruction button with a
non-empty file list, `processFiles` does not invoke the shared `apiService`
client; it runs a local simulation that marks every file `completed` and
ends with a success toast. -/
theorem upload_processFiles_simulates (files : List String) (h : files ≠ []) :
    callsApiService (Upload.processFiles files) = false ∧
    UploadEffect.toastSuccess "All files processed successfully!" ∈
      Upload.processFiles files ∧
    (∀ i, i < files.length →
      UploadEffect.setStatus i "completed" ∈ Upload.processFiles files) := by
  have hne : ¬(files.length = 0) := by
    cases files with
    | nil => exact absurd rfl h
    | cons a l => simp
  refine ⟨?_, ?_, ?_⟩
  · rw [callsApiService, List.any_eq_false]
    intro e he
    rw [Upload.processFiles, if_neg hne] at he
    rcases List.mem_append.mp he with he1 | he2
    · rcases List.mem_append.mp he1 with he11 | he12
      · rw [List.mem_singleton] at he11
        subst he11
        simp
      · obtain ⟨blk, hblk, hebl⟩ := List.mem_flatten.mp he12
        obtain ⟨i, -, rfl⟩ := List.mem_map.mp hblk
        rcases List.mem_append.mp hebl with hb1 | hb2
        · rcases List.mem_append.mp hb1 with hb11 | hb12
          · rw [List.mem_singleton] at hb11
            subst hb11
            simp
          · obtain ⟨p, -, rfl⟩ := List.mem_map.mp hb12
            simp
        · rw [List.mem_singleton] at hb2
          subst hb2
          simp
    · rcases List.mem_cons.mp he2 with he21 | he22
      · subst he21
        simp
      · rw [List.mem_singleton] at he22
        subst he22
        simp
  · rw [Upload.processFiles, if_neg hne]
    refine List.mem_append.mpr (Or.inr ?_)
    exact List.mem_cons.mpr (Or.inr (List.mem_singleton.mpr rfl))
  · intro i hi
    rw [Upload.processFiles, if_neg hne]
    refine List.mem_append.mpr (Or.inl (List.mem_append.mpr (Or.inr ?_)))
    refine List.mem_flatten.mpr ⟨_, List.mem_map.mpr ⟨i, List.mem_range.mpr hi, rfl⟩, ?_⟩
    exact List.mem_append.mpr (Or.inr (List.mem_singleton.mpr rfl))

/-- Witness for C7 (amended): the concrete one-element file list. -/
theorem upload_processFiles_simulates_witness :
    callsApiService (Upload.processFiles ["a.dcm"]) = false ∧
    UploadEffect.toastSuccess "All files processed successfully!" ∈
      Upload.processFiles ["a.dcm"] ∧
    (∀ i, i < (["a.dcm"] : List String).length →
      UploadEffect.setStatus i "completed" ∈ Upload.processFiles ["a.dcm"]) :=
  upload_processFiles_simulates ["a.dcm"] (by simp)
